import Mathlib

/-!
# Verification of the `response-tools` sparse-RMF decoder and DRM composition

Shallow embedding, faithful to the Python sources, of

* `response_tools_py/detector_response.py` — `col2arr_py` and `vrmf2arr_py`,
  the sparse-to-dense redistribution-matrix decoder;
* `response_tools/responses.py` — `foxsi4_telescope_response`, the ARF×RMF
  (DRM) composition, together with `BaseOutput.update_function_path` from
  `util.py`;
* `effective_area.py` — the final construction step of
  `eff_area_msfc_10shell` in both packages (the 2-D scattered interpolant
  itself is scipy floating-point code and enters as a function parameter).

Numbers are modelled as `Int` (decoder: values are only copied, never
combined, so any carrier is faithful) and `ℚ` (composition: exact arithmetic
standing for float arithmetic on the small exact inputs the claims use).
Numpy arrays are lists of lists; numpy `ValueError`s surface as
`Except.error`.  Negative Python indices and out-of-bounds fancy indexing do
not occur in any input considered here; lookups are totalised with `List.getD`
and the theorems carry the corresponding well-formedness hypotheses.
-/

/-! ## Python slicing and slice assignment -/

/-- Python slice `xs[lo:hi]` for non-negative bounds: both bounds are clamped
to the list length and an empty slice results when `hi ≤ lo`. -/
def pySlice (xs : List Int) (lo hi : Int) : List Int :=
  let l := min lo.toNat xs.length
  let h := min hi.toNat xs.length
  (xs.drop l).take (h - l)

/-- Python indexing `row[k]` where a negative `k` counts from the end, as used
for `starting_inds = b[1] - 1` in `vrmf2arr_py`. -/
def pyGet (row : List Int) (k : Int) : Int :=
  if k < 0 then row.getD (row.length - (-k).toNat) 0 else row.getD k.toNat 0

/-- Numpy slice assignment `row[start : start+cnt] = rhs`.  The slice bounds
are clamped to the row length; the right-hand side must match the resulting
slice length, except that a length-1 right-hand side broadcasts into a slice
of any length — including a length-0 slice, in which case the assignment is
silently a no-op.  Any other length mismatch raises a `ValueError`. -/
def setSlice (row : List Int) (start cnt : Int) (rhs : List Int) :
    Except String (List Int) :=
  let w := row.length
  let lo := min start.toNat w
  let hi := min (start + cnt).toNat w
  let tlen := hi - lo
  if rhs.length = tlen then
    .ok (row.take lo ++ rhs ++ row.drop (lo + tlen))
  else if rhs.length = 1 then
    .ok (row.take lo ++ List.replicate tlen (rhs.getD 0 0) ++ row.drop (lo + tlen))
  else
    .error "could not broadcast input array"

/-! ## `np.nonzero` on a 2-D integer array (row-major order) -/

/-- Indices of the nonzero entries of one row, columns numbered from `j`. -/
def nonzeroRowFrom (i j : Nat) : List Int → List (Nat × Nat)
  | [] => []
  | v :: vs => (if v ≠ 0 then [(i, j)] else []) ++ nonzeroRowFrom i (j + 1) vs

/-- Indices of the nonzero entries of a 2-D array, rows numbered from `i`. -/
def nonzero2dFrom (i : Nat) : List (List Int) → List (Nat × Nat)
  | [] => []
  | row :: rest => nonzeroRowFrom i 0 row ++ nonzero2dFrom (i + 1) rest

/-- `np.nonzero(a)` for a 2-D array: the `(row, column)` pairs of all nonzero
entries in row-major order. -/
def nonzero2d (a : List (List Int)) : List (Nat × Nat) :=
  nonzero2dFrom 0 a

/-- `np.cumsum(xs)` (inclusive running sum) of one row. -/
def cumsumFrom (acc : Int) : List Int → List Int
  | [] => []
  | x :: xs => (acc + x) :: cumsumFrom (acc + x) xs

/-- `np.cumsum(a, axis=1)` applied to one row. -/
def cumsumRow (xs : List Int) : List Int :=
  cumsumFrom 0 xs

/-! ## `col2arr_py`

The Python source computes `max_len = np.max([len([r]) for r in data])` and
pads each row `[*[r], *(max_len - len([r])) * [0]]`.  Because each `r` is
wrapped in a singleton list before `len` is taken, `max_len` is `1` for every
non-empty input and the padding is always empty.  Python is dynamically
typed; the two monomorphic embeddings below are the same source applied to
scalar-valued rows (the "NuSTAR" case the `[r]` tweak targets) and to
general Python values. -/

/-- A Python value as far as `col2arr_py` is concerned: an integer scalar or
a (nested) list. -/
inductive PyVal where
  | i : Int → PyVal
  | l : List PyVal → PyVal

/-- `col2arr_py(data)` on general Python values: each row `r` becomes `[r]`
padded with scalar zeros up to `max_len`, where `max_len` is the maximum of
`len([r])` over the rows. -/
def col2arr_py (data : List PyVal) : List (List PyVal) :=
  let max_len := (data.map (fun r => ([r] : List PyVal).length)).foldr Nat.max 0
  data.map (fun r =>
    [r] ++ List.replicate (max_len - ([r] : List PyVal).length) (PyVal.i 0))

/-- `col2arr_py(data)` when every row of `data` is an integer scalar, the
case produced by scalar `F_CHAN`/`N_CHAN` FITS columns. -/
def col2arr_py_scalar (data : List Int) : List (List Int) :=
  let max_len := (data.map (fun r => ([r] : List Int).length)).foldr Nat.max 0
  data.map (fun r =>
    [r] ++ List.replicate (max_len - ([r] : List Int).length) (0 : Int))

/-! ## `vrmf2arr_py` -/

/-- The per-group write operations of `vrmf2arr_py`'s final loop, in loop
order: for the `r`-th nonzero entry `(i, j)` of `n_chan_array`, the loop body
`mat_array_py[b[0][r], c[r] : c[r] + d[r]] = data[b[0][r]][new_e[r] : final_inds[r]]`
is recorded as `(i, c[r], d[r], sliced data)`.  `c`, `d`, `final_inds`,
`starting_inds`, `start_inds` and `new_e` are computed exactly as in the
source (`e` is the row-wise cumulative sum of `n_chan_array`; `new_e` is `0`
where `starting_inds` is `-1` and `e[i][j-1]` otherwise). -/
def writeList (data : List (List Int)) (f_chan_array n_chan_array : List (List Int)) :
    List (Nat × Int × Int × List Int) :=
  let e := n_chan_array.map cumsumRow
  (nonzero2d n_chan_array).map (fun p =>
    let i := p.1
    let j := p.2
    let cij := (f_chan_array.getD i []).getD j 0
    let dij := (n_chan_array.getD i []).getD j 0
    let fin := (e.getD i []).getD j 0
    let st : Int := (j : Int) - 1
    let stv := pyGet (e.getD i []) st
    let ne := if st ≠ -1 then stv else 0
    (i, cij, dij, pySlice (data.getD i []) ne fin))

/-- Run the recorded slice assignments in order over the matrix, propagating
the first numpy `ValueError`. -/
def applyWrites (mat : List (List Int)) :
    List (Nat × Int × Int × List Int) → Except String (List (List Int))
  | [] => .ok mat
  | (i, st, cnt, rhs) :: ws =>
    match setSlice (mat.getD i []) st cnt rhs with
    | .error e => .error e
    | .ok row => applyWrites (mat.set i row) ws

/-- `vrmf2arr_py(data, n_grp_list, f_chan_array, n_chan_array)`: the matrix
is initialised as `np.zeros((len(data), len(n_grp_list)))` and the per-group
writes are applied in loop order.  (The initial
`n_grp_list.astype("<i2")` cast changes neither the length nor, for the
values in scope, the entries of `n_grp_list`, which is afterwards used only
through `len(n_grp_list)`.) -/
def vrmf2arr_py (data : List (List Int)) (n_grp_list : List Int)
    (f_chan_array n_chan_array : List (List Int)) :
    Except String (List (List Int)) :=
  applyWrites
    (List.replicate data.length (List.replicate n_grp_list.length (0 : Int)))
    (writeList data f_chan_array n_chan_array)

/-- The decode pipeline of `cdte_det_resp_rmf` for scalar per-row
`f_chan`/`n_chan`: `col2arr_py` on each, then `vrmf2arr_py`. -/
def decode_pipeline (data : List (List Int)) (n_grp : List Int)
    (f_chan n_chan : List Int) : Except String (List (List Int)) :=
  vrmf2arr_py data n_grp (col2arr_py_scalar f_chan) (col2arr_py_scalar n_chan)

/-! ## The dense matrix generated by a one-group-per-row encoding -/

/-- Row `i` of the dense matrix generated by a single contiguous group:
zeros, then the group's values starting at column `f`, then zeros up to
width `w`. -/
def denseRow (f : Int) (v : List Int) (w : Nat) : List Int :=
  List.replicate f.toNat 0 ++ v ++ List.replicate (w - f.toNat - v.length) 0

/-- The dense `n × n` matrix generated by an encoding with (at most) one
group per row: row `i` carries `vals[i]` starting at column `f_chan[i]`. -/
def mkDense (f_chan : List Int) (vals : List (List Int)) (n : Nat) :
    List (List Int) :=
  (List.range n).map (fun i => denseRow (f_chan.getD i 0) (vals.getD i []) n)

/-! ## `responses.py` — the DRM composition engine

`Response1DOutput` and `Response2DOutput` are dataclasses extending
`BaseOutput` (`filename`, `function_path`).  Their `elements` tuples hold
references to the constituent response objects; for the two input objects
these references are opaque here (`List String`), while the DRM output's
tuple holds the two (mutated) inputs themselves, exactly as
`elements=(arf_response, rmf_response)` does in the source. -/

/-- `responses.Response1DOutput` (an ARF). -/
structure Response1D where
  filename : String
  function_path : String
  mid_energies : List ℚ
  response : List ℚ
  response_type : String
  telescope : String
  elements : List String
deriving DecidableEq

/-- `responses.Response2DOutput` (an RMF). -/
structure Response2D where
  filename : String
  function_path : String
  input_energy_edges : List ℚ
  output_energy_edges : List ℚ
  response : List (List ℚ)
  response_type : String
  telescope : String
  elements : List String
deriving DecidableEq

/-- The `Response2DOutput` built and returned by `foxsi4_telescope_response`:
same fields, but its `elements` tuple holds the two input objects. -/
structure DRMOutput where
  filename : String
  function_path : String
  input_energy_edges : List ℚ
  output_energy_edges : List ℚ
  response : List (List ℚ)
  response_type : String
  telescope : String
  elements : Response1D × Response2D
deriving DecidableEq

/-- Observable outcome of one `foxsi4_telescope_response` call: the two input
objects as they stand after the call (the function mutates their
`function_path`), the returned DRM, and whether the telescope-mismatch
warning was logged. -/
structure TelRespResult where
  arf_after : Response1D
  rmf_after : Response2D
  drm : DRMOutput
  warned : Bool
deriving DecidableEq

/-- Errors raised by `foxsi4_telescope_response`: the explicit
`ValueError` for mismatched grids (the spec's `GridMismatch`), and numpy's
broadcasting `ValueError` when `arf_response.response[:,None]` cannot be
broadcast against `rmf_response.response`. -/
inductive CompError where
  | gridMismatch
  | broadcastMismatch
deriving DecidableEq

/-- `(edges[:-1] + edges[1:]) / 2` — midpoints of an edge array. -/
def midpoints (edges : List ℚ) : List ℚ :=
  List.zipWith (fun a b => (a + b) / 2) edges.dropLast edges.tail

/-- `BaseOutput.update_function_path` from `util.py`:
`self.function_path += f"\n->{new_function_name}"`. -/
def update_function_path (function_path new_function_name : String) : String :=
  function_path ++ "\n->" ++ new_function_name

/-- `foxsi4_telescope_response(arf_response, rmf_response)` from
`responses.py`: check `arf_response.mid_energies` against the bin centres of
`rmf_response.input_energy_edges` (raising `ValueError` on mismatch), log a
warning when the `telescope` fields differ, broadcast-multiply
`arf_response.response[:,None] * rmf_response.response`, append the function
name to both inputs' `function_path`, and return a `Response2DOutput` whose
telescope tag is the source's
`f"ARF:{arf_response.telescope},RMF:{arf_response.telescope}"` (both slots
read the ARF's telescope field). -/
def foxsi4_telescope_response (arf_response : Response1D)
    (rmf_response : Response2D) : Except CompError TelRespResult :=
  let rmf_mids := midpoints rmf_response.input_energy_edges
  if arf_response.mid_energies = rmf_mids then
    if arf_response.response.length = rmf_response.response.length then
      let warned := arf_response.telescope ≠ rmf_response.telescope
      let total_response := List.zipWith
        (fun a row => row.map (fun x => a * x))
        arf_response.response rmf_response.response
      let arf2 := { arf_response with
        function_path :=
          update_function_path arf_response.function_path "foxsi4_telescope_response" }
      let rmf2 := { rmf_response with
        function_path :=
          update_function_path rmf_response.function_path "foxsi4_telescope_response" }
      .ok { arf_after := arf2
            rmf_after := rmf2
            warned := decide warned
            drm := { filename := "No-File"
                     function_path := "foxsi4_telescope_response"
                     input_energy_edges := rmf_response.input_energy_edges
                     output_energy_edges := rmf_response.output_energy_edges
                     response := total_response
                     response_type := "DRM"
                     telescope :=
                       "ARF:" ++ arf_response.telescope ++ ",RMF:" ++ arf_response.telescope
                     elements := (arf2, rmf2) } }
    else .error CompError.broadcastMismatch
  else .error CompError.gridMismatch

/-! ## `eff_area_msfc_10shell` — final construction step

The 2-D Clough–Tocher interpolant built from the tilt/pan calibration tables
is scipy floating-point code; it enters as the parameter `interp`.  What is
embedded is what each package does with the interpolated values. -/

/-- `response_tools_py/effective_area.py`, `eff_area_msfc_10shell`: the
interpolant is evaluated at the requested energies and off-axis angle and
the values are returned as-is — no clamping of negative overshoot. -/
def eff_area_msfc_10shell_construct (interp : ℚ → ℚ → ℚ)
    (mid_energies : List ℚ) (off_axis : ℚ) : List ℚ :=
  mid_energies.map (fun e => interp e off_axis)

/-- `response_tools/effective_area.py`, `eff_area_msfc_10shell` (the
successor package): same evaluation followed by
`effective_areas[effective_areas < 0 << u.cm**2] = 0 << u.cm**2`. -/
def eff_area_msfc_10shell_rt_construct (interp : ℚ → ℚ → ℚ)
    (mid_energies : List ℚ) (off_axis : ℚ) : List ℚ :=
  (mid_energies.map (fun e => interp e off_axis)).map
    (fun v => if v < 0 then 0 else v)

/-! ## Example response objects used in concrete instances -/

/-- ARF example: values `[2.0, 5.0]` at mid-energies `[2, 4] keV`. -/
def exampleARF : Response1D :=
  { filename := "No-File"
    function_path := "foxsi4_telescope2_arf"
    mid_energies := [2, 4]
    response := [2, 5]
    response_type := "ARF"
    telescope := "foxsi4-telescope2"
    elements := ["tb", "opt", "uni_al"] }

/-- RMF example: edges `[1, 3, 5] keV` (midpoints `[2, 4]`), matrix
`[[0.1, 0.2], [0.0, 0.3]]`, from a different telescope than `exampleARF`. -/
def exampleRMF : Response2D :=
  { filename := "No-File"
    function_path := "foxsi4_telescope3_rmf"
    input_energy_edges := [1, 3, 5]
    output_energy_edges := [1, 3, 5]
    response := [[1/10, 2/10], [0, 3/10]]
    response_type := "RMF"
    telescope := "foxsi4-telescope3"
    elements := ["rmf"] }

/-- ARF evaluated at `[4.0, 5.0, 6.0] keV`. -/
def mismatchARF : Response1D :=
  { exampleARF with mid_energies := [4, 5, 6], response := [1, 1, 1] }

/-- RMF whose edge midpoints are `[4.0, 5.0, 6.1] keV`. -/
def mismatchRMF : Response2D :=
  { exampleRMF with
    input_energy_edges := [7/2, 9/2, 11/2, 67/10]
    response := [[1, 0, 0], [0, 1, 0], [0, 0, 1]] }

/-! ## Claim C6 — `col2arr_py` on ragged per-row lists -/

/-- Claim C6 (counterexample evidence): on the per-row lists
`[[0], [0], [0, 22]]` — the very input of `col2arr_py`'s own docstring
example, whose documented output is the rectangular zero-padded table
`[[0, 0], [0, 0], [0, 22]]` — every row of the value actually computed has
length 1 (each input row is wrapped as a singleton, and `max_len` is
computed from `len([r])`, which is always 1), not length 2 as a rectangular
table of width max-group-count would require. -/
theorem C6_col2arr_docstring_divergence :
    (col2arr_py [PyVal.l [PyVal.i 0], PyVal.l [PyVal.i 0],
        PyVal.l [PyVal.i 0, PyVal.i 22]]).map List.length = [1, 1, 1] ∧
      ([1, 1, 1] : List Nat) ≠ [2, 2, 2] :=
  ⟨rfl, by decide⟩

/-! ## Claim C7 — out-of-range group -/

/-- Claim C7 (counterexample evidence): one photon row, one group of one
channel starting at column 1, matrix width 1 (`len(n_grp_list) = 1`), so
`start + count = 2` exceeds the width.  The decoder does not fail: the
length-1 source slice `[7]` broadcasts into the empty clipped slice
`mat[0, 1:2]` and the group is silently dropped, returning the zero
matrix. -/
theorem C7_out_of_range_silently_dropped :
    vrmf2arr_py [[7]] [1] [[1]] [[1]] = Except.ok [[0]] :=
  rfl

/-! ## Claim C9 — negative interpolation overshoot -/

/-- Claim C9 (counterexample evidence): with an interpolant that overshoots
to `-1` at the queried point, the `response_tools_py` construction step of
`eff_area_msfc_10shell` returns `-1` unclamped — the constructed
effective-area output contains a negative value. -/
theorem C9_negative_not_clamped :
    eff_area_msfc_10shell_construct (fun _ _ => (-1 : ℚ)) [5] 0 = [-1] ∧
      (-1 : ℚ) < 0 :=
  ⟨rfl, by norm_num⟩

/-- The successor package's construction step does clamp: its output is
never negative, whatever the interpolant does. -/
theorem eff_area_msfc_10shell_rt_nonneg (interp : ℚ → ℚ → ℚ)
    (mid_energies : List ℚ) (off_axis : ℚ) :
    ∀ v ∈ eff_area_msfc_10shell_rt_construct interp mid_energies off_axis,
      0 ≤ v := by
  intro v hv
  simp only [eff_area_msfc_10shell_rt_construct, List.mem_map] at hv
  obtain ⟨x, -, rfl⟩ := hv
  split
  · exact le_refl 0
  · exact le_of_not_lt (by assumption)

/-! ## Claim C3 — grid-mismatch rejection -/

/-- Claim C3: whenever the ARF mid-point energies are not element-wise equal
to the midpoints of the RMF's input energy edges, `foxsi4_telescope_response`
raises the grid-mismatch `ValueError` and produces no product. -/
theorem C3_grid_mismatch_rejected (arf_response : Response1D)
    (rmf_response : Response2D)
    (h : arf_response.mid_energies ≠ midpoints rmf_response.input_energy_edges) :
    foxsi4_telescope_response arf_response rmf_response =
      Except.error CompError.gridMismatch := by
  unfold foxsi4_telescope_response
  simp only [if_neg h]

/-- Witness for C3 at the spec's instance: ARF at `[4, 5, 6] keV` against an
RMF whose edge midpoints are `[4, 5, 6.1] keV`. -/
theorem C3_grid_mismatch_witness :
    foxsi4_telescope_response mismatchARF mismatchRMF =
      Except.error CompError.gridMismatch :=
  C3_grid_mismatch_rejected mismatchARF mismatchRMF (by
    norm_num [mismatchARF, mismatchRMF, exampleARF, exampleRMF, midpoints])

/-! ## Concrete evaluation of the example composition -/

/-- `exampleARF` after the call, its `function_path` appended to. -/
def exampleARF2 : Response1D :=
  { exampleARF with
    function_path :=
      update_function_path exampleARF.function_path "foxsi4_telescope_response" }

/-- `exampleRMF` after the call, its `function_path` appended to. -/
def exampleRMF2 : Response2D :=
  { exampleRMF with
    function_path :=
      update_function_path exampleRMF.function_path "foxsi4_telescope_response" }

/-- The value returned by `foxsi4_telescope_response` on the example pair. -/
def exampleResult : TelRespResult :=
  { arf_after := exampleARF2
    rmf_after := exampleRMF2
    warned := true
    drm := { filename := "No-File"
             function_path := "foxsi4_telescope_response"
             input_energy_edges := [1, 3, 5]
             output_energy_edges := [1, 3, 5]
             response := [[1/5, 2/5], [0, 3/2]]
             response_type := "DRM"
             telescope := "ARF:foxsi4-telescope2,RMF:foxsi4-telescope2"
             elements := (exampleARF2, exampleRMF2) } }

/-- Full evaluation of `foxsi4_telescope_response` on the example pair:
grids match, telescopes differ, and the DRM is the row-scaled matrix
`[[0.2, 0.4], [0.0, 1.5]]`. -/
theorem exampleComposition :
    foxsi4_telescope_response exampleARF exampleRMF = Except.ok exampleResult := by
  have hgrid : exampleARF.mid_energies = midpoints exampleRMF.input_energy_edges := by
    norm_num [exampleARF, exampleRMF, midpoints]
  have hlen : exampleARF.response.length = exampleRMF.response.length := by
    norm_num [exampleARF, exampleRMF]
  unfold foxsi4_telescope_response
  rw [if_pos hgrid, if_pos hlen]
  norm_num [exampleARF, exampleRMF, exampleARF2, exampleRMF2, exampleResult]
  exact ⟨rfl, by decide⟩

/-! ## Claim C8 — telescope tag on mismatched telescopes -/

/-- Claim C8 (counterexample evidence): composing an ARF from
`foxsi4-telescope2` with an RMF from `foxsi4-telescope3` (grids matching)
does warn and does return the product, but the returned telescope tag is
`"ARF:foxsi4-telescope2,RMF:foxsi4-telescope2"` — the source's f-string
reads `arf_response.telescope` in both slots — and not the claimed
`"ARF:foxsi4-telescope2,RMF:foxsi4-telescope3"`. -/
theorem C8_telescope_tag_bug :
    (foxsi4_telescope_response exampleARF exampleRMF).map
        (fun r => (r.warned, r.drm.telescope)) =
      Except.ok (true, "ARF:foxsi4-telescope2,RMF:foxsi4-telescope2") ∧
      "ARF:foxsi4-telescope2,RMF:foxsi4-telescope2" ≠
        "ARF:foxsi4-telescope2,RMF:foxsi4-telescope3" :=
  ⟨by rw [exampleComposition]; rfl, by decide⟩

/-! ## Claim C2 — DRM is a row-wise scalar multiply -/

/-- `getD` through a scaled row. -/
theorem getD_map_scale (a : ℚ) (l : List ℚ) (j : Nat) :
    (l.map (fun x => a * x)).getD j 0 = a * l.getD j 0 := by
  induction l generalizing j with
  | nil => simp
  | cons x xs ih =>
    cases j with
    | zero => simp
    | succ j => simpa using ih j

/-- `getD` through the broadcast product
`arf_response.response[:,None] * rmf_response.response`. -/
theorem getD_zip_scale (as : List ℚ) (bs : List (List ℚ))
    (h : as.length = bs.length) (i j : Nat) :
    ((List.zipWith (fun a row => row.map (fun x => a * x)) as bs).getD i []).getD j 0
      = as.getD i 0 * (bs.getD i []).getD j 0 := by
  induction as generalizing bs i with
  | nil =>
    have : bs = [] := List.eq_nil_of_length_eq_zero h.symm
    simp [this]
  | cons a as ih =>
    cases bs with
    | nil => simp at h
    | cons b bs =>
      cases i with
      | zero => simpa using getD_map_scale a b j
      | succ i =>
        simpa using ih bs (by simpa using h) i

/-- Claim C2: when the ARF mid-point energies equal the midpoints of the
RMF's input energy edges (and the arrays are broadcast-compatible), the
returned DRM is exactly the broadcast product: `DRM[i, j] = ARF[i] *
RMF[i, j]` for every photon row `i` and count column `j` — a row-wise scalar
multiply, not a matrix product. -/
theorem C2_drm_row_scaling (arf_response : Response1D)
    (rmf_response : Response2D)
    (hgrid : arf_response.mid_energies = midpoints rmf_response.input_energy_edges)
    (hlen : arf_response.response.length = rmf_response.response.length) :
    (foxsi4_telescope_response arf_response rmf_response).map (fun r => r.drm.response)
        = Except.ok (List.zipWith (fun a row => row.map (fun x => a * x))
            arf_response.response rmf_response.response) ∧
      ∀ i j : Nat,
        ((List.zipWith (fun a row => row.map (fun x => a * x))
            arf_response.response rmf_response.response).getD i []).getD j 0
          = arf_response.response.getD i 0 * (rmf_response.response.getD i []).getD j 0 := by
  constructor
  · unfold foxsi4_telescope_response
    rw [if_pos hgrid, if_pos hlen]
    rfl
  · intro i j
    exact getD_zip_scale arf_response.response rmf_response.response hlen i j

/-- Witness for C2 at the spec's instance: RMF matrix
`[[0.1, 0.2], [0.0, 0.3]]` and ARF values `[2.0, 5.0]` at the matching
midpoints give the DRM `[[0.2, 0.4], [0.0, 1.5]]`. -/
theorem C2_drm_row_scaling_witness :
    (foxsi4_telescope_response exampleARF exampleRMF).map (fun r => r.drm.response)
      = Except.ok [[1/5, 2/5], [0, 3/2]] := by
  have h := C2_drm_row_scaling exampleARF exampleRMF
    (by norm_num [exampleARF, exampleRMF, midpoints])
    (by norm_num [exampleARF, exampleRMF])
  exact h.1.trans (congrArg Except.ok (by norm_num [exampleARF, exampleRMF]))

/-! ## Claim C10 — inputs are mutated only in `function_path` -/

/-- Claim C10: whenever `foxsi4_telescope_response` accepts a pair and
returns a product, each input object is left with every field unchanged
except `function_path`, to which the composing function's name has been
appended by `update_function_path`. -/
theorem C10_provenance_append_only (arf_response : Response1D)
    (rmf_response : Response2D) (res : TelRespResult)
    (hres : foxsi4_telescope_response arf_response rmf_response = Except.ok res) :
    res.arf_after.filename = arf_response.filename ∧
    res.arf_after.mid_energies = arf_response.mid_energies ∧
    res.arf_after.response = arf_response.response ∧
    res.arf_after.response_type = arf_response.response_type ∧
    res.arf_after.telescope = arf_response.telescope ∧
    res.arf_after.elements = arf_response.elements ∧
    res.arf_after.function_path
      = update_function_path arf_response.function_path "foxsi4_telescope_response" ∧
    res.rmf_after.filename = rmf_response.filename ∧
    res.rmf_after.input_energy_edges = rmf_response.input_energy_edges ∧
    res.rmf_after.output_energy_edges = rmf_response.output_energy_edges ∧
    res.rmf_after.response = rmf_response.response ∧
    res.rmf_after.response_type = rmf_response.response_type ∧
    res.rmf_after.telescope = rmf_response.telescope ∧
    res.rmf_after.elements = rmf_response.elements ∧
    res.rmf_after.function_path
      = update_function_path rmf_response.function_path "foxsi4_telescope_response" := by
  simp only [foxsi4_telescope_response] at hres
  split_ifs at hres
  injection hres with hres
  subst hres
  exact ⟨rfl, rfl, rfl, rfl, rfl, rfl, rfl, rfl, rfl, rfl, rfl, rfl, rfl, rfl, rfl⟩

/-- Witness for C10 on the example pair: the post-call ARF keeps its
response values and has exactly the appended provenance string. -/
theorem C10_provenance_witness :
    exampleResult.arf_after.response = exampleARF.response ∧
    exampleResult.arf_after.function_path
      = update_function_path exampleARF.function_path "foxsi4_telescope_response" :=
  ⟨(C10_provenance_append_only exampleARF exampleRMF exampleResult
      exampleComposition).2.2.1,
   (C10_provenance_append_only exampleARF exampleRMF exampleResult
      exampleComposition).2.2.2.2.2.2.1⟩

/-! ## Decoder infrastructure lemmas -/

/-- `List.getD` through `List.set` at a different index. -/
theorem getD_set_ne (l : List (List Int)) (k i : Nat) (v : List Int)
    (h : k ≠ i) : (l.set k v).getD i [] = l.getD i [] := by
  simp [List.getD_eq_getElem?_getD, List.getElem?_set_ne h]

/-- A successful slice assignment never changes the row length. -/
theorem setSlice_length (row : List Int) (start cnt : Int) (rhs row' : List Int)
    (h : setSlice row start cnt rhs = .ok row') : row'.length = row.length := by
  simp only [setSlice] at h
  split_ifs at h with h1 h2
  · injection h with h
    subst h
    simp only [List.length_append, List.length_take, List.length_drop]
    omega
  · injection h with h
    subst h
    simp only [List.length_append, List.length_take, List.length_drop,
      List.length_replicate]
    omega

/-- `applyWrites` preserves the number of rows. -/
theorem applyWrites_length (ws : List (Nat × Int × Int × List Int)) :
    ∀ mat M : List (List Int),
      applyWrites mat ws = .ok M → M.length = mat.length := by
  induction ws with
  | nil =>
    intro mat M h
    injection h with h
    subst h
    rfl
  | cons w ws ih =>
    intro mat M h
    obtain ⟨i, st, cnt, rhs⟩ := w
    simp only [applyWrites] at h
    cases hs : setSlice (mat.getD i []) st cnt rhs with
    | error e => rw [hs] at h; exact absurd h (by simp)
    | ok row =>
      rw [hs] at h
      rw [ih _ _ h, List.length_set]

/-- `applyWrites` preserves the common row width. -/
theorem applyWrites_rows_length (ws : List (Nat × Int × Int × List Int)) :
    ∀ (mat M : List (List Int)) (w0 : Nat),
      (∀ row ∈ mat, row.length = w0) → applyWrites mat ws = .ok M →
      ∀ row ∈ M, row.length = w0 := by
  induction ws with
  | nil =>
    intro mat M w0 hrows h
    injection h with h
    subst h
    exact hrows
  | cons w ws ih =>
    intro mat M w0 hrows h
    obtain ⟨i, st, cnt, rhs⟩ := w
    simp only [applyWrites] at h
    cases hs : setSlice (mat.getD i []) st cnt rhs with
    | error e => rw [hs] at h; exact absurd h (by simp)
    | ok row =>
      rw [hs] at h
      rcases Nat.lt_or_ge i mat.length with hi | hi
      · refine ih _ _ _ ?_ h
        intro r hr
        rcases List.mem_or_eq_of_mem_set hr with hr | hr
        · exact hrows r hr
        · subst hr
          rw [setSlice_length _ _ _ _ _ hs,
            List.getD_eq_getElem _ _ hi]
          exact hrows _ (List.getElem_mem hi)
      · refine ih (mat.set i row) M w0 ?_ h
        rw [List.set_eq_of_length_le hi]
        exact hrows

/-- Rows named by no write are left as they were. -/
theorem applyWrites_untouched (ws : List (Nat × Int × Int × List Int)) :
    ∀ (mat M : List (List Int)) (i : Nat),
      (∀ w ∈ ws, w.1 ≠ i) → applyWrites mat ws = .ok M →
      M.getD i [] = mat.getD i [] := by
  induction ws with
  | nil =>
    intro mat M i _ h
    injection h with h
    subst h
    rfl
  | cons w ws ih =>
    intro mat M i hne h
    obtain ⟨k, st, cnt, rhs⟩ := w
    simp only [applyWrites] at h
    cases hs : setSlice (mat.getD k []) st cnt rhs with
    | error e => rw [hs] at h; exact absurd h (by simp)
    | ok row =>
      rw [hs] at h
      have hki : k ≠ i := hne _ (List.mem_cons_self _ _)
      rw [ih _ _ _ (fun w hw => hne w (List.mem_cons_of_mem _ hw)) h,
        getD_set_ne _ _ _ _ hki]

/-- Every entry of `np.nonzero` of one row points at a nonzero entry. -/
theorem mem_nonzeroRowFrom (i : Nat) (p : Nat × Nat) :
    ∀ (j : Nat) (vs : List Int), p ∈ nonzeroRowFrom i j vs →
      p.1 = i ∧ j ≤ p.2 ∧ vs.getD (p.2 - j) 0 ≠ 0 := by
  intro j vs
  induction vs generalizing j with
  | nil => intro hp; simp [nonzeroRowFrom] at hp
  | cons v vs ih =>
    intro hp
    simp only [nonzeroRowFrom, List.mem_append] at hp
    rcases hp with hp | hp
    · split at hp
      · simp only [List.mem_singleton] at hp
        subst hp
        refine ⟨rfl, Nat.le_refl _, ?_⟩
        simpa using (by assumption : v ≠ 0)
      · simp at hp
    · obtain ⟨h1, h2, h3⟩ := ih (j + 1) hp
      refine ⟨h1, Nat.le_trans (Nat.le_succ j) h2, ?_⟩
      have hsub : p.2 - j = (p.2 - (j + 1)) + 1 := by omega
      rw [hsub, List.getD_cons_succ]
      exact h3

/-- Every entry of `np.nonzero` of a 2-D array points at a nonzero entry. -/
theorem mem_nonzero2dFrom (p : Nat × Nat) :
    ∀ (k : Nat) (a : List (List Int)), p ∈ nonzero2dFrom k a →
      k ≤ p.1 ∧ (a.getD (p.1 - k) []).getD p.2 0 ≠ 0 := by
  intro k a
  induction a generalizing k with
  | nil => intro hp; simp [nonzero2dFrom] at hp
  | cons row rest ih =>
    intro hp
    simp only [nonzero2dFrom, List.mem_append] at hp
    rcases hp with hp | hp
    · obtain ⟨h1, -, h3⟩ := mem_nonzeroRowFrom k p 0 row hp
      subst h1
      simpa using h3
    · obtain ⟨h1, h2⟩ := ih (k + 1) hp
      refine ⟨Nat.le_trans (Nat.le_succ k) h1, ?_⟩
      have hsub : p.1 - k = (p.1 - (k + 1)) + 1 := by omega
      rw [hsub, List.getD_cons_succ]
      exact h2

/-- Every write of `vrmf2arr_py` targets a row of `n_chan_array` holding a
nonzero entry. -/
theorem writeList_row_nonzero (data f_chan_array n_chan_array : List (List Int))
    (w : Nat × Int × Int × List Int)
    (hw : w ∈ writeList data f_chan_array n_chan_array) :
    ∃ j, (n_chan_array.getD w.1 []).getD j 0 ≠ 0 := by
  simp only [writeList, List.mem_map] at hw
  obtain ⟨p, hp, rfl⟩ := hw
  have h := mem_nonzero2dFrom p 0 n_chan_array hp
  exact ⟨p.2, by simpa using h.2⟩

/-! ## Claim C4 — shape of the decoded matrix -/

/-- Claim C4 (counterexample): the encoding generated from the non-square
2×3 dense matrix `[[0, 0, 5], [0, 6, 0]]` (row 0: one group at column 2,
row 1: one group at column 1) decodes to a matrix whose rows have length 2,
not `n_count_columns = 3` — `vrmf2arr_py` allocates
`np.zeros((len(data), len(n_grp_list)))` and takes no count-column input,
and the out-of-range group is lost. -/
theorem C4_shape_counterexample :
    (vrmf2arr_py [[5], [6]] [1, 1] [[2], [1]] [[1], [1]]).map
        (fun M => M.map List.length) = Except.ok [2, 2] ∧
      ([2, 2] : List Nat) ≠ [3, 3] :=
  ⟨rfl, by decide⟩

/-- Claim C4 (amended): a successfully decoded matrix has
`len(data)` rows and `len(n_grp_list)` columns — the column count is the
length of `n_grp`, not an independent `n_count_columns`, so the output is
square whenever, as in the calling code, `data` and `n_grp` have the same
length.  The hypotheses state the shape-consistency of the inputs under
which the Python fancy indexing is defined. -/
theorem C4_shape_amended (data : List (List Int)) (n_grp_list : List Int)
    (f_chan_array n_chan_array : List (List Int))
    (_hf : f_chan_array.length = data.length)
    (_hn : n_chan_array.length = data.length)
    (M : List (List Int))
    (hM : vrmf2arr_py data n_grp_list f_chan_array n_chan_array = .ok M) :
    M.length = data.length ∧ ∀ row ∈ M, row.length = n_grp_list.length := by
  constructor
  · have h := applyWrites_length _ _ _ hM
    simpa using h
  · refine applyWrites_rows_length _ _ _ _ ?_ hM
    intro row hr
    rw [List.eq_of_mem_replicate hr]
    exact List.length_replicate _ _

/-- Witness for C4 at a well-formed 2-row encoding: the decoded matrix has
as many rows as `data` and rows as wide as `n_grp_list` is long. -/
theorem C4_shape_witness :
    ([[5, 0], [0, 6]] : List (List Int)).length
        = ([[5], [6]] : List (List Int)).length ∧
      ([5, 0] : List Int).length = ([1, 1] : List Int).length :=
  ⟨(C4_shape_amended [[5], [6]] [1, 1] [[0], [1]] [[1], [1]] rfl rfl
      [[5, 0], [0, 6]] rfl).1,
   (C4_shape_amended [[5], [6]] [1, 1] [[0], [1]] [[1], [1]] rfl rfl
      [[5, 0], [0, 6]] rfl).2 [5, 0] (by decide)⟩

/-! ## Claim C5 — rows with `n_grp[i] = 0` -/

/-- Claim C5 (counterexample): a single row with `n_grp = [0]` but a nonzero
padding entry in `n_chan` decodes to `[[9]]`, not to the all-zero row: the
decoder reads group validity off the nonzero entries of `n_chan_array` and
never consults `n_grp` for it. -/
theorem C5_zero_row_counterexample :
    vrmf2arr_py [[9]] [0] [[0]] [[1]] = Except.ok [[9]] ∧
      ([9] : List Int) ≠ [0] :=
  ⟨rfl, by decide⟩

/-- Claim C5 (amended): a row decodes to the all-zero row whenever its
`n_chan_array` row contains no nonzero entry — the decoder reads group
validity off the nonzero entries of `n_chan`, never off `n_grp`, so for a
row with `n_grp[i] = 0` the all-zero guarantee needs the additional
condition that the `n_chan` padding entries really are zero. -/
theorem C5_zero_row_amended (data : List (List Int)) (n_grp_list : List Int)
    (f_chan_array n_chan_array : List (List Int)) (i : Nat)
    (hi : i < data.length)
    (hz : ∀ v ∈ n_chan_array.getD i [], v = 0)
    (M : List (List Int))
    (hM : vrmf2arr_py data n_grp_list f_chan_array n_chan_array = .ok M) :
    M.getD i [] = List.replicate n_grp_list.length (0 : Int) := by
  have huntouched := applyWrites_untouched _ _ _ i ?_ hM
  · rw [huntouched, List.getD_eq_getElem _ _ (by simpa using hi)]
    simp
  · intro w hw hwi
    obtain ⟨j, hj⟩ := writeList_row_nonzero _ _ _ w hw
    rw [hwi] at hj
    rcases Nat.lt_or_ge j (n_chan_array.getD i []).length with hlt | hge
    · exact hj (hz _ (by rw [List.getD_eq_getElem _ _ hlt]; exact List.getElem_mem hlt))
    · exact hj (List.getD_eq_default _ _ hge)

/-- Witness for C5: in a 2-row encoding whose first `n_chan` row is all
zeros, the decoded first row is the all-zero row. -/
theorem C5_zero_row_witness :
    ([[0, 0], [8, 0]] : List (List Int)).getD 0 []
      = List.replicate 2 (0 : Int) :=
  C5_zero_row_amended [[9], [8]] [0, 1] [[0], [0]] [[0], [1]] 0
    (by decide) (by decide) [[0, 0], [8, 0]] rfl

/-! ## Claim C1 — decoder round-trip through `col2arr_py` -/

/-- The `max_len` computed by `col2arr_py` is at most 1: it measures
`len([r])`, which is 1 for every row. -/
theorem col2arr_max_len_le_one (xs : List Int) :
    ((xs.map (fun _ => (1 : Nat))).foldr Nat.max 0) ≤ 1 := by
  induction xs with
  | nil => simp
  | cons x xs ih => simpa using ih

/-- On scalar rows `col2arr_py` is exactly "wrap each entry in a singleton":
`max_len` is 1, so the zero padding is empty. -/
theorem col2arr_py_scalar_eq (xs : List Int) :
    col2arr_py_scalar xs = xs.map (fun r => [r]) := by
  have h : ((xs.map (fun _ => (1 : Nat))).foldr Nat.max 0) - 1 = 0 :=
    Nat.sub_eq_zero_of_le (col2arr_max_len_le_one xs)
  simp only [col2arr_py_scalar, List.length_singleton, h, List.replicate_zero,
    List.append_nil]

/-- `getD` through a `map` at an in-range index. -/
theorem getD_map_fn (f : Int → List Int) (xs : List Int) (i : Nat)
    (h : i < xs.length) : (xs.map f).getD i [] = f (xs.getD i 0) := by
  rw [List.getD_eq_getElem _ _ (by simpa using h), List.getElem_map,
    List.getD_eq_getElem _ _ h]

/-- `np.nonzero` of a width-1 column array, as a `filterMap` over the row
indices. -/
theorem nonzero2dFrom_singleton (xs : List Int) :
    ∀ k : Nat,
      nonzero2dFrom k (xs.map (fun r => [r]))
        = (List.range' k xs.length).filterMap
            (fun i => if xs.getD (i - k) 0 ≠ 0 then some ((i, 0) : Nat × Nat) else none) := by
  induction xs with
  | nil => intro k; simp [nonzero2dFrom]
  | cons x xs ih =>
    intro k
    have htail :
        (List.range' (k + 1) xs.length).filterMap
            (fun i => if (x :: xs).getD (i - k) 0 ≠ 0 then some ((i, 0) : Nat × Nat) else none)
          = (List.range' (k + 1) xs.length).filterMap
            (fun i => if xs.getD (i - (k + 1)) 0 ≠ 0 then some ((i, 0) : Nat × Nat) else none) := by
      refine List.filterMap_congr ?_
      intro i hi
      have hk := (List.mem_range'_1.mp hi).1
      have hik : i - k = (i - (k + 1)) + 1 := by omega
      rw [hik, List.getD_cons_succ]
    simp only [List.map_cons, nonzero2dFrom, nonzeroRowFrom, List.length_cons,
      List.range'_succ, List.filterMap_cons, Nat.sub_self, List.getD_cons_zero,
      List.append_nil]
    rw [htail, ih (k + 1)]
    by_cases hx : x = 0 <;> simp [hx]

/-- The write list of the scalar pipeline: one write per row with nonzero
`n_chan`, copying `data[i][0 : n_chan[i]]` to columns starting at
`f_chan[i]`. -/
theorem writeList_scalar (data : List (List Int)) (f_chan n_chan : List Int)
    (hf : f_chan.length = n_chan.length) :
    writeList data (col2arr_py_scalar f_chan) (col2arr_py_scalar n_chan)
      = (List.range' 0 n_chan.length).filterMap
          (fun i => if n_chan.getD i 0 ≠ 0 then
              some (i, f_chan.getD i 0, n_chan.getD i 0,
                pySlice (data.getD i []) 0 (n_chan.getD i 0))
            else none) := by
  rw [col2arr_py_scalar_eq, col2arr_py_scalar_eq]
  simp only [writeList, nonzero2d, nonzero2dFrom_singleton, List.map_map]
  rw [List.map_filterMap]
  refine List.filterMap_congr ?_
  intro i hi
  have hilt : i < n_chan.length := by
    have := (List.mem_range'_1.mp hi).2
    omega
  have hif : i < f_chan.length := hf ▸ hilt
  by_cases hz : n_chan.getD i 0 = 0
  · rw [Nat.sub_zero, if_neg (not_not_intro hz), if_neg (not_not_intro hz)]
    rfl
  · rw [Nat.sub_zero, if_pos hz, if_pos hz]
    simp only [Option.map_some']
    rw [getD_map_fn _ _ _ hif, getD_map_fn _ _ _ hilt,
      getD_map_fn (cumsumRow ∘ fun r => [r]) _ _ hilt]
    simp [cumsumRow, cumsumFrom]

/-- Slicing a whole row: `v[0 : c]` is `v` when `c` is the length of `v`. -/
theorem pySlice_all (v : List Int) (c : Int) (hl : (v.length : Int) = c) :
    pySlice v 0 c = v := by
  have hc : c.toNat = v.length := by omega
  simp [pySlice, hc]

/-- Writing one in-range group over a zero row produces the generated dense
row. -/
theorem setSlice_zero_row (n : Nat) (f c : Int) (v : List Int)
    (hf0 : 0 ≤ f) (hfc : f + c ≤ (n : Int)) (hvl : (v.length : Int) = c) :
    setSlice (List.replicate n (0 : Int)) f c v = .ok (denseRow f v n) := by
  have hc0 : 0 ≤ c := by omega
  have h1 : f.toNat ≤ n := by omega
  have h2 : (f + c).toNat = f.toNat + c.toNat := by omega
  have h3 : f.toNat + c.toNat ≤ n := by omega
  have hvlen : v.length = c.toNat := by omega
  simp only [setSlice, List.length_replicate]
  rw [Nat.min_eq_left h1, h2, Nat.min_eq_left h3]
  rw [if_pos (by omega : v.length = f.toNat + c.toNat - f.toNat)]
  rw [List.take_replicate, List.drop_replicate, Nat.min_eq_left h1]
  rw [denseRow, hvlen, Nat.sub_sub, Nat.add_sub_cancel_left]

/-- `take (k+1)` via `take k` and the `k`-th row. -/
theorem take_succ_getD (l : List (List Int)) (k : Nat) (h : k < l.length) :
    l.take (k + 1) = l.take k ++ [l.getD k []] := by
  rw [List.take_succ, List.getD_eq_getElem _ _ h, List.getElem?_eq_getElem h]
  rfl

/-- `take (k+1)` of a matrix updated at row `k`. -/
theorem take_succ_set (l : List (List Int)) (k : Nat) (v : List Int)
    (h : k < l.length) :
    (l.set k v).take (k + 1) = l.take k ++ [v] := by
  rw [take_succ_getD _ _ (by simpa using h)]
  congr 1
  · rw [List.set_take, List.set_eq_of_length_le]
    rw [List.length_take]
    omega
  · rw [List.getD_eq_getElem?_getD, List.getElem?_set_self (by simpa using h)]
    rfl

/-- A dense row generated by an empty group is the zero row. -/
theorem denseRow_nil (f : Int) (n : Nat) (hf0 : 0 ≤ f) (hfn : f ≤ (n : Int)) :
    denseRow f ([] : List Int) n = List.replicate n (0 : Int) := by
  rw [denseRow]
  simp only [List.length_nil, List.append_nil]
  rw [← List.replicate_add]
  rw [show f.toNat + (n - f.toNat - 0) = n by omega]

/-- One successful write step of the decode loop. -/
theorem applyWrites_cons_ok (mat : List (List Int)) (i : Nat) (st cnt : Int)
    (rhs row : List Int) (ws : List (Nat × Int × Int × List Int))
    (h : setSlice (mat.getD i []) st cnt rhs = .ok row) :
    applyWrites mat ((i, st, cnt, rhs) :: ws) = applyWrites (mat.set i row) ws := by
  simp only [applyWrites]
  rw [h]

/-- Running the scalar write list over a matrix whose rows from `k` on are
zero rows fills in the generated dense rows from `k` on. -/
theorem applyWrites_scalar (f_chan n_chan : List Int) (vals : List (List Int))
    (n : Nat)
    (hrow : ∀ i, i < n → 0 ≤ f_chan.getD i 0 ∧
      f_chan.getD i 0 + n_chan.getD i 0 ≤ (n : Int) ∧
      ((vals.getD i []).length : Int) = n_chan.getD i 0) :
    ∀ m k : Nat, ∀ mat : List (List Int), k + m = n → mat.length = n →
      (∀ i, k ≤ i → i < n → mat.getD i [] = List.replicate n (0 : Int)) →
      applyWrites mat ((List.range' k m).filterMap
          (fun i => if n_chan.getD i 0 ≠ 0 then
              some (i, f_chan.getD i 0, n_chan.getD i 0,
                pySlice (vals.getD i []) 0 (n_chan.getD i 0))
            else none))
        = .ok (mat.take k ++ (List.range' k m).map
            (fun i => denseRow (f_chan.getD i 0) (vals.getD i []) n)) := by
  intro m
  induction m with
  | zero =>
    intro k mat hkm hlen _
    simp only [List.range', List.filterMap_nil, List.map_nil, applyWrites,
      List.append_nil]
    rw [List.take_of_length_le (by omega)]
  | succ m ih =>
    intro k mat hkm hlen hzero
    have hkn : k < n := by omega
    obtain ⟨hf0, hfc, hvl⟩ := hrow k hkn
    rw [List.range'_succ]
    by_cases hz : n_chan.getD k 0 = 0
    · rw [List.filterMap_cons_none (by rw [if_neg (not_not_intro hz)])]
      rw [ih (k + 1) mat (by omega) hlen (fun i h1 h2 => hzero i (by omega) h2)]
      have hv0 : vals.getD k [] = [] := by
        refine List.eq_nil_of_length_eq_zero ?_
        have : ((vals.getD k []).length : Int) = 0 := by rw [hvl, hz]
        omega
      rw [take_succ_getD mat k (by omega), hzero k (Nat.le_refl k) hkn,
        List.map_cons, hv0, denseRow_nil _ _ hf0 (by omega)]
      simp [List.append_assoc]
    · rw [List.filterMap_cons_some (by rw [if_pos hz])]
      have hset : setSlice (mat.getD k []) (f_chan.getD k 0) (n_chan.getD k 0)
          (pySlice (vals.getD k []) 0 (n_chan.getD k 0))
            = .ok (denseRow (f_chan.getD k 0) (vals.getD k []) n) := by
        rw [hzero k (Nat.le_refl k) hkn, pySlice_all _ _ hvl]
        exact setSlice_zero_row n _ _ _ hf0 hfc hvl
      rw [applyWrites_cons_ok _ _ _ _ _ _ _ hset]
      rw [ih (k + 1) (mat.set k (denseRow (f_chan.getD k 0) (vals.getD k []) n))
        (by omega) (by rw [List.length_set]; exact hlen)
        (fun i h1 h2 => by
          rw [getD_set_ne _ _ _ _ (by omega)]
          exact hzero i (by omega) h2)]
      rw [take_succ_set mat k _ (by omega), List.map_cons]
      simp [List.append_assoc]

/-- Claim C1 (counterexample): the valid non-square encoding of the dense
1×2 matrix `[[3, 4]]` — one row, one group of two channels starting at
column 0 — does not decode back to `[[3, 4]]`: `vrmf2arr_py` allocates a
`1 × len(n_grp)` = 1×1 matrix and the two-element copy raises numpy's
broadcasting `ValueError`. -/
theorem C1_roundtrip_counterexample :
    decode_pipeline [[3, 4]] [1] [0] [2] ≠ Except.ok [[3, 4]] := by
  intro h
  rw [show decode_pipeline [[3, 4]] [1] [0] [2]
      = Except.error "could not broadcast input array" from rfl] at h
  exact Except.noConfusion h

/-- Claim C1 (amended): encode-then-decode through `col2arr_py` and
`vrmf2arr_py` is the identity for the encodings the code handles: a square
matrix (`n_count_columns = n_photon_rows`) with at most one group per row,
`f_chan`/`n_chan` given as per-row scalars, every group in range, and each
row's value list exactly `n_chan[i]` long.  Rows with `n_chan[i] = 0` decode
to zero rows. -/
theorem C1_roundtrip_amended (vals : List (List Int))
    (n_grp f_chan n_chan : List Int)
    (hgn : n_grp.length = vals.length)
    (hfn : f_chan.length = vals.length)
    (hnn : n_chan.length = vals.length)
    (hrow : ∀ i, i < vals.length → 0 ≤ f_chan.getD i 0 ∧
      f_chan.getD i 0 + n_chan.getD i 0 ≤ (vals.length : Int) ∧
      ((vals.getD i []).length : Int) = n_chan.getD i 0) :
    decode_pipeline vals n_grp f_chan n_chan
      = .ok (mkDense f_chan vals vals.length) := by
  unfold decode_pipeline vrmf2arr_py
  rw [writeList_scalar _ _ _ (by omega), hnn, hgn]
  rw [applyWrites_scalar f_chan n_chan vals vals.length hrow vals.length 0
    (List.replicate vals.length (List.replicate vals.length 0))
    (by omega) (by simp)
    (fun i h1 h2 => by
      rw [List.getD_eq_getElem _ _ (by simpa using h2)]
      simp)]
  simp [mkDense, List.range_eq_range']

/-- Witness for C1 (amended) on the square encoding of
`[[0, 3], [5, 0]]`: row 0 has its group at column 1, row 1 at column 0. -/
theorem C1_roundtrip_witness :
    decode_pipeline [[3], [5]] [1, 1] [1, 0] [1, 1]
      = Except.ok (mkDense [1, 0] [[3], [5]] 2) :=
  C1_roundtrip_amended [[3], [5]] [1, 1] [1, 0] [1, 1] rfl rfl rfl (by decide)

/-! ## Support for C9's decoded-matrix half: `vrmf2arr_py` only copies
values, so a decode of non-negative data contains no negative entry. -/

/-- Entries of a Python slice come from the sliced list. -/
theorem mem_pySlice (xs : List Int) (lo hi : Int) (v : Int)
    (hv : v ∈ pySlice xs lo hi) : v ∈ xs := by
  simp only [pySlice] at hv
  exact List.mem_of_mem_drop (List.mem_of_mem_take hv)

/-- Entries of a row after a slice assignment come from the old row or from
the assigned values. -/
theorem mem_setSlice (row : List Int) (st cnt : Int) (rhs row' : List Int)
    (h : setSlice row st cnt rhs = .ok row') (v : Int) (hv : v ∈ row') :
    v ∈ row ∨ v ∈ rhs := by
  simp only [setSlice] at h
  split_ifs at h with h1 h2
  · injection h with h
    subst h
    rcases List.mem_append.mp hv with hv | hv
    · rcases List.mem_append.mp hv with hv | hv
      · exact Or.inl (List.mem_of_mem_take hv)
      · exact Or.inr hv
    · exact Or.inl (List.mem_of_mem_drop hv)
  · injection h with h
    subst h
    rcases List.mem_append.mp hv with hv | hv
    · rcases List.mem_append.mp hv with hv | hv
      · exact Or.inl (List.mem_of_mem_take hv)
      · refine Or.inr ?_
        rw [(List.mem_replicate.mp hv).2]
        cases rhs with
        | nil => simp at h2
        | cons r rs => exact List.mem_cons_self r rs
    · exact Or.inl (List.mem_of_mem_drop hv)

/-- `applyWrites` keeps every entry non-negative when the starting matrix
and all assigned values are non-negative. -/
theorem applyWrites_nonneg (ws : List (Nat × Int × Int × List Int)) :
    ∀ mat M : List (List Int),
      (∀ row ∈ mat, ∀ v ∈ row, 0 ≤ v) →
      (∀ w ∈ ws, ∀ v ∈ w.2.2.2, 0 ≤ v) →
      applyWrites mat ws = .ok M →
      ∀ row ∈ M, ∀ v ∈ row, 0 ≤ v := by
  induction ws with
  | nil =>
    intro mat M hmat _ h
    injection h with h
    subst h
    exact hmat
  | cons w ws ih =>
    intro mat M hmat hws h
    obtain ⟨i, st, cnt, rhs⟩ := w
    simp only [applyWrites] at h
    cases hs : setSlice (mat.getD i []) st cnt rhs with
    | error e => rw [hs] at h; exact absurd h (by simp)
    | ok row =>
      rw [hs] at h
      refine ih _ _ ?_ (fun w hw => hws w (List.mem_cons_of_mem _ hw)) h
      intro r hr v hv
      rcases List.mem_or_eq_of_mem_set hr with hr | hr
      · exact hmat r hr v hv
      · subst hr
        rcases mem_setSlice _ _ _ _ _ hs v hv with hv | hv
        · rcases Nat.lt_or_ge i mat.length with hi | hi
          · refine hmat _ ?_ v hv
            rw [List.getD_eq_getElem _ _ hi]
            exact List.getElem_mem hi
          · rw [List.getD_eq_default _ _ hi] at hv
            simp at hv
        · exact hws (i, st, cnt, rhs) (List.mem_cons_self _ _) v hv

/-- A decode of non-negative data has no negative entry: the decoder only
copies value slices into a zero matrix. -/
theorem vrmf2arr_py_nonneg (data : List (List Int)) (n_grp_list : List Int)
    (f_chan_array n_chan_array : List (List Int)) (M : List (List Int))
    (hdata : ∀ row ∈ data, ∀ v ∈ row, 0 ≤ v)
    (hM : vrmf2arr_py data n_grp_list f_chan_array n_chan_array = .ok M) :
    ∀ row ∈ M, ∀ v ∈ row, 0 ≤ v := by
  refine applyWrites_nonneg _ _ _ ?_ ?_ hM
  · intro row hrow v hv
    rw [List.eq_of_mem_replicate hrow] at hv
    rw [List.eq_of_mem_replicate hv]
  · intro w hw v hv
    simp only [writeList, List.mem_map] at hw
    obtain ⟨p, hp, rfl⟩ := hw
    have hv' := mem_pySlice _ _ _ v hv
    rcases Nat.lt_or_ge p.1 data.length with hi | hi
    · refine hdata _ ?_ v hv'
      rw [List.getD_eq_getElem _ _ hi]
      exact List.getElem_mem hi
    · rw [List.getD_eq_default _ _ hi] at hv'
      simp at hv'
